import Mathlib

/-!
Shallow embedding of the ctb_analysis backtesting scripts.

Money and prices are modelled as exact rationals (ℚ); the Python code uses
floats, but every claim is about the arithmetic structure of the
computation, which the rational embedding preserves.  Calendar timestamps
are modelled as (year, month, day) triples with the lexicographic order,
matching the chronological order of pandas timestamps on daily data.

Sources embedded:
  * scripts/simple_dca.py     (class SimpleDCA, method run_dca)
  * scripts/buy_the_dip.py    (class BuyTheDip, method run_strategy)
  * scripts/compare_strategies.py (StrategyComparison.print_comparison scoring)
  * scripts/analyze_drops.py  (analyze_drops monthly grouping)
  * scripts/analyze_august.py (analyze_august daily-return assignment)
-/

/-- Calendar date: year, month, day. -/
structure Date where
  y : ℕ
  m : ℕ
  d : ℕ
deriving DecidableEq, Repr

/-- Chronological (lexicographic) order on dates, as pandas Timestamp
comparison restricted to daily resolution. -/
def Date.le (a b : Date) : Prop :=
  a.y < b.y ∨ (a.y = b.y ∧ (a.m < b.m ∨ (a.m = b.m ∧ a.d ≤ b.d)))

instance : LE Date := ⟨Date.le⟩

instance (a b : Date) : Decidable (a ≤ b) := by
  show Decidable (Date.le a b)
  unfold Date.le
  infer_instance

/-- One daily OHLCV bar.  The field for the opening price is called `op`
because `open` is a reserved word in Lean; all other column names are kept. -/
structure Bar where
  date : Date
  op : ℚ
  high : ℚ
  low : ℚ
  close : ℚ
  volume : ℚ
deriving DecidableEq, Repr

/-- Close of the last row of the frame (`df['close'].iloc[-1]`); 0 on an
empty frame, which the scripts never reach because they only read it when
at least one purchase exists (hence the frame is non-empty). -/
def lastClose (df : List Bar) : ℚ :=
  match df.getLast? with
  | some b => b.close
  | none => 0

/-- The (year, month) group key of a bar, as the `year`/`month` columns
added by `run_dca` / `run_strategy`. -/
def monthKey (b : Bar) : ℕ × ℕ := (b.date.y, b.date.m)

/-- Lexicographic order on (year, month) keys; pandas `groupby` sorts the
group keys in this order. -/
def monthLe (a b : ℕ × ℕ) : Prop := a.1 < b.1 ∨ (a.1 = b.1 ∧ a.2 ≤ b.2)

instance (a b : ℕ × ℕ) : Decidable (monthLe a b) := by
  unfold monthLe
  infer_instance

/-- Distinct (year, month) pairs present in the frame, sorted ascending:
`df.groupby(['year', 'month']).size().reset_index()[['year', 'month']]`. -/
def uniqueMonths (df : List Bar) : List (ℕ × ℕ) :=
  ((df.map monthKey).dedup).insertionSort monthLe

/-- Rows of the frame belonging to one (year, month) group:
`self.df[(self.df['year'] == year) & (self.df['month'] == month)]`. -/
def monthData (df : List Bar) (y m : ℕ) : List Bar :=
  df.filter (fun b => b.date.y == y && b.date.m == m)

/-- Bars of the month dated on or after the target date:
`available_dates[available_dates >= target_date]`. -/
def matchingBars (monthBars : List Bar) (target : Date) : List Bar :=
  monthBars.filter (fun b => decide (target ≤ b.date))

/-- The bar the monthly purchase executes on: the first available bar on or
after the target date, else the last bar of the month
(`matching_dates[0]` / `available_dates[-1]`); `none` exactly when the
month has no rows at all (the `continue` branch). -/
def buyBar (monthBars : List Bar) (target : Date) : Option Bar :=
  match matchingBars monthBars target with
  | b :: _ => some b
  | [] => monthBars.getLast?

/-- One entry of the SimpleDCA purchase log (the `purchase` dict). -/
structure DcaPurchase where
  date : Date
  year : ℕ
  month : ℕ
  price : ℚ
  investment : ℚ
  coins_bought : ℚ
  total_invested : ℚ
  total_coins : ℚ
  avg_price : ℚ
deriving DecidableEq, Repr

/-- Mutable accumulator state of `SimpleDCA.run_dca`. -/
structure DcaState where
  total_invested : ℚ := 0
  total_coins : ℚ := 0
  purchases : List DcaPurchase := []
deriving DecidableEq, Repr

/-- Body of the `for idx, row in unique_months.iterrows()` loop of
`SimpleDCA.run_dca` for one (year, month) pair. -/
def dcaStep (df : List Bar) (monthly : ℚ) (day : ℕ) (s : DcaState)
    (ym : ℕ × ℕ) : DcaState :=
  match buyBar (monthData df ym.1 ym.2) ⟨ym.1, ym.2, day⟩ with
  | none => s
  | some b =>
      let price := b.close
      let coins_bought := monthly / price
      let total_coins := s.total_coins + coins_bought
      let total_invested := s.total_invested + monthly
      { total_invested := total_invested
        total_coins := total_coins
        purchases := s.purchases ++ [{
          date := b.date
          year := ym.1
          month := ym.2
          price := price
          investment := monthly
          coins_bought := coins_bought
          total_invested := total_invested
          total_coins := total_coins
          avg_price := total_invested / total_coins }] }

/-- The `results` dict built by `SimpleDCA.run_dca` when at least one
purchase happened. -/
structure DcaResults where
  total_invested : ℚ
  total_coins : ℚ
  avg_cost : ℚ
  current_price : ℚ
  current_value : ℚ
  total_return : ℚ
  return_pct : ℚ
  num_purchases : ℕ
  purchases : List DcaPurchase
deriving DecidableEq, Repr

/-- `SimpleDCA.run_dca`: one pass over the sorted distinct months, then the
summary block; returns `none` (Python `None`) when no purchase was made. -/
def run_dca (df : List Bar) (monthly : ℚ) (day : ℕ) : Option DcaResults :=
  let fin := (uniqueMonths df).foldl (dcaStep df monthly day) {}
  if fin.purchases.isEmpty then none
  else
    let current_price := lastClose df
    let current_value := fin.total_coins * current_price
    let total_return := current_value - fin.total_invested
    some {
      total_invested := fin.total_invested
      total_coins := fin.total_coins
      avg_cost := if fin.total_coins > 0 then fin.total_invested / fin.total_coins else 0
      current_price := current_price
      current_value := current_value
      total_return := total_return
      return_pct := if fin.total_invested > 0 then total_return / fin.total_invested * 100 else 0
      num_purchases := fin.purchases.length
      purchases := fin.purchases }

/-- Intrabar (same-day) return `(close - open) / open * 100`, the
`daily_return` column added by `BuyTheDip.__init__`. -/
def intrabarReturn (b : Bar) : ℚ := (b.close - b.op) / b.op * 100

/-- One entry of the BuyTheDip purchase log. -/
structure DipPurchase where
  date : Date
  price : ℚ
  daily_return : ℚ
  investment : ℚ
  coins_bought : ℚ
  total_invested : ℚ
  total_coins : ℚ
  avg_price : ℚ
deriving DecidableEq, Repr

/-- Mutable accumulator state of `BuyTheDip.run_strategy`. -/
structure DipState where
  total_invested : ℚ := 0
  total_coins : ℚ := 0
  accumulated_cash : ℚ := 0
  purchases : List DipPurchase := []
  dip_days : ℕ := 0
  missed_opportunities : ℕ := 0
deriving DecidableEq, Repr

/-- Body of the `for idx, row in self.df.iterrows()` loop of
`BuyTheDip.run_strategy` for one bar. -/
def dipStep (threshold daily_savings : ℚ) (s : DipState) (b : Bar) : DipState :=
  let cash := s.accumulated_cash + daily_savings
  if intrabarReturn b ≤ threshold then
    if cash ≥ 100 then
      let price := b.close
      let investment := cash
      let coins_bought := investment / price
      let total_coins := s.total_coins + coins_bought
      let total_invested := s.total_invested + investment
      { s with
        total_invested := total_invested
        total_coins := total_coins
        accumulated_cash := 0
        dip_days := s.dip_days + 1
        purchases := s.purchases ++ [{
          date := b.date
          price := price
          daily_return := intrabarReturn b
          investment := investment
          coins_bought := coins_bought
          total_invested := total_invested
          total_coins := total_coins
          avg_price := if total_coins > 0 then total_invested / total_coins else 0 }] }
    else
      { s with
        accumulated_cash := cash
        dip_days := s.dip_days + 1
        missed_opportunities := s.missed_opportunities + 1 }
  else
    { s with accumulated_cash := cash }

/-- The `results` dict built by `BuyTheDip.run_strategy` when at least one
purchase happened. -/
structure DipResults where
  total_invested : ℚ
  total_coins : ℚ
  avg_cost : ℚ
  current_price : ℚ
  current_value : ℚ
  accumulated_cash : ℚ
  current_value_with_cash : ℚ
  total_should_save : ℚ
  total_return : ℚ
  return_pct : ℚ
  num_purchases : ℕ
  total_days : ℕ
  dip_days : ℕ
  missed_opportunities : ℕ
  purchases : List DipPurchase
deriving DecidableEq, Repr

/-- `BuyTheDip.run_strategy`: one pass over the bars in frame order, then
the summary block; returns `none` (Python `None`) when no purchase was
made. -/
def run_strategy (df : List Bar) (monthly_savings threshold : ℚ) : Option DipResults :=
  let daily_savings := monthly_savings / 30
  let fin := df.foldl (dipStep threshold daily_savings) {}
  if fin.purchases.isEmpty then none
  else
    let total_days := df.length
    let current_price := lastClose df
    let current_value := fin.total_coins * current_price
    let total_should_save := (total_days : ℚ) * daily_savings
    let current_value_with_cash := current_value + fin.accumulated_cash
    let total_return := current_value_with_cash - total_should_save
    some {
      total_invested := fin.total_invested
      total_coins := fin.total_coins
      avg_cost := if fin.total_coins > 0 then fin.total_invested / fin.total_coins else 0
      current_price := current_price
      current_value := current_value
      accumulated_cash := fin.accumulated_cash
      current_value_with_cash := current_value_with_cash
      total_should_save := total_should_save
      total_return := total_return
      return_pct := if total_should_save > 0 then total_return / total_should_save * 100 else 0
      num_purchases := fin.purchases.length
      total_days := total_days
      dip_days := fin.dip_days
      missed_opportunities := fin.missed_opportunities
      purchases := fin.purchases }

/-- The two strategies compared by `StrategyComparison`. -/
inductive Strategy where
  | simpleDCA
  | buyTheDip
deriving DecidableEq, Repr

/-- Simple-DCA capital utilization as printed by
`StrategyComparison.print_comparison`:
`(dca_invested / dca_r['total_invested']) * 100` (self-referential, hence
100 whenever the total is non-zero). -/
def dcaUtilization (dca_r : DcaResults) : ℚ :=
  dca_r.total_invested / dca_r.total_invested * 100

/-- Buy-the-Dip capital utilization as printed by
`StrategyComparison.print_comparison`:
`(dip_invested / dip_r['total_should_save']) * 100`. -/
def dipUtilization (dip_r : DipResults) : ℚ :=
  dip_r.total_invested / dip_r.total_should_save * 100

/-- The score tally of `StrategyComparison.print_comparison`
(Simple DCA score, Buy the Dip score): +3 to the winner of total BTC,
+2 to the winner of average buy price (lower wins), +2 to the winner of
return percentage, +1 to the winner of capital utilization. -/
def comparisonScores (dca_r : DcaResults) (dip_r : DipResults) : ℕ × ℕ :=
  let sBtc : ℕ × ℕ := if dca_r.total_coins > dip_r.total_coins then (3, 0) else (0, 3)
  let sAvg : ℕ × ℕ := if dca_r.avg_cost < dip_r.avg_cost then (2, 0) else (0, 2)
  let sRet : ℕ × ℕ := if dca_r.return_pct > dip_r.return_pct then (2, 0) else (0, 2)
  let sUtil : ℕ × ℕ :=
    if dcaUtilization dca_r > dipUtilization dip_r then (1, 0) else (0, 1)
  (sBtc.1 + sAvg.1 + sRet.1 + sUtil.1, sBtc.2 + sAvg.2 + sRet.2 + sUtil.2)

/-- The declared overall winner: `max(scores, key=scores.get)` over a dict
listing Simple DCA first, so Simple DCA is returned unless Buy the Dip has
a strictly higher score. -/
def comparisonWinner (dca_r : DcaResults) (dip_r : DipResults) : Strategy :=
  if (comparisonScores dca_r dip_r).2 > (comparisonScores dca_r dip_r).1 then
    Strategy.buyTheDip
  else Strategy.simpleDCA

/-- Modelled from the spec: the unweighted point tally the claim describes,
in which every metric awards the same number of points (one each) to its
pointwise winner.  This definition follows the spec text, not the source,
and is compared against `comparisonScores`. -/
def specUnweightedScores (dca_r : DcaResults) (dip_r : DipResults) : ℕ × ℕ :=
  let sBtc : ℕ × ℕ := if dca_r.total_coins > dip_r.total_coins then (1, 0) else (0, 1)
  let sAvg : ℕ × ℕ := if dca_r.avg_cost < dip_r.avg_cost then (1, 0) else (0, 1)
  let sRet : ℕ × ℕ := if dca_r.return_pct > dip_r.return_pct then (1, 0) else (0, 1)
  let sUtil : ℕ × ℕ :=
    if dcaUtilization dca_r > dipUtilization dip_r then (1, 0) else (0, 1)
  (sBtc.1 + sAvg.1 + sRet.1 + sUtil.1, sBtc.2 + sAvg.2 + sRet.2 + sUtil.2)

/-- Modelled from the spec: `totalShouldSave = totalBars × (monthlyStipend/30)`,
the spec's meaning of the amount that should have been saved over the
elapsed period ("months elapsed × monthly stipend", §4.3). -/
def specShouldSave (df : List Bar) (monthly : ℚ) : ℚ :=
  (df.length : ℚ) * (monthly / 30)

/-- Running maximum (pandas `cummax`) continuing from an already-seen
maximum `acc`. -/
def rollingMaxFrom (acc : ℚ) : List ℚ → List ℚ
  | [] => []
  | x :: xs => (max acc x) :: rollingMaxFrom (max acc x) xs

/-- Pandas `Series.cummax`. -/
def cummax : List ℚ → List ℚ
  | [] => []
  | x :: xs => x :: rollingMaxFrom x xs

/-- Minimum of a series (`Series.min`); 0 on an empty series, which
`analyze_drops` never reaches because every group is non-empty. -/
def listMin : List ℚ → ℚ
  | [] => 0
  | x :: xs => xs.foldl min x

/-- One row of the `results` table of `analyze_drops`. -/
structure DropsRow where
  year : ℕ
  month : ℕ
  open_price : ℚ
  close_price : ℚ
  monthly_return : ℚ
  max_drawdown : ℚ
  max_daily_drop : ℚ
deriving DecidableEq, Repr

/-- The row `analyze_drops` appends for one month group `g` (non-empty in
every group produced by `groupby`): monthly return close-vs-open, max
drawdown of lows against the running max of highs, and the worst intrabar
drop. -/
def dropsRow (y m : ℕ) (g : List Bar) : DropsRow :=
  let open_price := ((g.head?).map Bar.op).getD 0
  let close_price := ((g.getLast?).map Bar.close).getD 0
  { year := y
    month := m
    open_price := open_price
    close_price := close_price
    monthly_return := (close_price - open_price) / open_price * 100
    max_drawdown := listMin (List.zipWith
      (fun lo rmax => (lo - rmax) / rmax * 100) (g.map Bar.low) (cummax (g.map Bar.high)))
    max_daily_drop := listMin (g.map intrabarReturn) }

/-- The per-month result list of `analyze_drops`: one row per
`groupby('year_month')` group, in sorted month order. -/
def analyze_drops_results (df : List Bar) : List DropsRow :=
  (uniqueMonths df).map (fun ym => dropsRow ym.1 ym.2 (monthData df ym.1 ym.2))

/-- The full-series cross-bar return column
`df['close'].pct_change() * 100`: NaN (here `none`) for the first row,
`(close[i] - close[i-1]) / close[i-1] * 100` for every later row. -/
def pctChangeReturns (df : List Bar) : List (Option ℚ) :=
  match df with
  | [] => []
  | _ :: _ =>
      none :: ((df.drop 1).zip df).map
        (fun p => some ((p.1.close - p.2.close) / p.2.close * 100))

/-- The final `daily_return` column of the August subrange in
`analyze_august`: the subrange-relative `pct_change` is overwritten by
`df.loc[august_data.index, 'daily_return']`, i.e. every August bar carries
the full-series return keyed by its date. -/
def augustRows (df : List Bar) : List (Date × Option ℚ) :=
  ((df.zip (pctChangeReturns df)).filter (fun p => p.1.date.m == 8)).map
    (fun p => (p.1.date, p.2))

/-- Shared machinery for the conservation invariant: the money fields
common to both purchase-log entry types. -/
structure PurchaseCore where
  investment : ℚ
  coins_bought : ℚ
  total_invested : ℚ
  total_coins : ℚ
  avg_price : ℚ
deriving DecidableEq, Repr

/-- Money fields of a SimpleDCA purchase. -/
def DcaPurchase.core (p : DcaPurchase) : PurchaseCore :=
  ⟨p.investment, p.coins_bought, p.total_invested, p.total_coins, p.avg_price⟩

/-- Money fields of a BuyTheDip purchase. -/
def DipPurchase.core (p : DipPurchase) : PurchaseCore :=
  ⟨p.investment, p.coins_bought, p.total_invested, p.total_coins, p.avg_price⟩

/-- Sum of the per-purchase cash amounts. -/
def sumInv (ps : List PurchaseCore) : ℚ := (ps.map PurchaseCore.investment).sum

/-- Sum of the per-purchase unit amounts. -/
def sumCoins (ps : List PurchaseCore) : ℚ := (ps.map PurchaseCore.coins_bought).sum

/-- The purchase log is cumulative-consistent starting from the running
totals (inv, coins): each entry's recorded totals extend the previous
totals by exactly its own investment and units, and each entry's running
average is the quotient of its recorded cumulative totals. -/
def cumOk : ℚ → ℚ → List PurchaseCore → Prop
  | _, _, [] => True
  | inv, coins, p :: ps =>
      p.total_invested = inv + p.investment ∧
      p.total_coins = coins + p.coins_bought ∧
      p.avg_price = p.total_invested / p.total_coins ∧
      cumOk p.total_invested p.total_coins ps

/-- Conservation invariant carried through the SimpleDCA fold. -/
def dcaConsInv (s : DcaState) : Prop :=
  cumOk 0 0 (s.purchases.map DcaPurchase.core) ∧
  s.total_invested = sumInv (s.purchases.map DcaPurchase.core) ∧
  s.total_coins = sumCoins (s.purchases.map DcaPurchase.core)

/-- Conservation invariant carried through the BuyTheDip fold; unit totals
stay non-negative because every executed purchase buys a positive quantity
at a positive price. -/
def dipConsInv (s : DipState) : Prop :=
  cumOk 0 0 (s.purchases.map DipPurchase.core) ∧
  s.total_invested = sumInv (s.purchases.map DipPurchase.core) ∧
  s.total_coins = sumCoins (s.purchases.map DipPurchase.core) ∧
  0 ≤ s.total_coins

/-- Demo bar for SimpleDCA runs: 2024-01-05, close 100. -/
def demoDcaBar : Bar :=
  { date := ⟨2024, 1, 5⟩, op := 100, high := 110, low := 90, close := 100, volume := 1 }

/-- Demo bar for BuyTheDip runs: 2024-01-01, a 10 percent intrabar drop. -/
def demoDipBar : Bar :=
  { date := ⟨2024, 1, 1⟩, op := 100, high := 110, low := 85, close := 90, volume := 1 }

/-- The SimpleDCA purchase executed on the demo bar with 3000 per month. -/
def demoDcaPurchase : DcaPurchase :=
  { date := ⟨2024, 1, 5⟩
    year := 2024
    month := 1
    price := 100
    investment := 3000
    coins_bought := 30
    total_invested := 3000
    total_coins := 30
    avg_price := 100 }

/-- The SimpleDCA result on the demo bar with 3000 per month, day 5. -/
def demoDcaRes : DcaResults :=
  { total_invested := 3000
    total_coins := 30
    avg_cost := 100
    current_price := 100
    current_value := 3000
    total_return := 0
    return_pct := 0
    num_purchases := 1
    purchases := [demoDcaPurchase] }

/-- The BuyTheDip purchase executed on the demo dip bar with stipend 3000. -/
def demoDipPurchase : DipPurchase :=
  { date := ⟨2024, 1, 1⟩
    price := 90
    daily_return := -10
    investment := 100
    coins_bought := 10 / 9
    total_invested := 100
    total_coins := 10 / 9
    avg_price := 90 }

/-- The BuyTheDip result on the demo dip bar with stipend 3000, dip
threshold -5. -/
def demoDipRes : DipResults :=
  { total_invested := 100
    total_coins := 10 / 9
    avg_cost := 90
    current_price := 90
    current_value := 100
    accumulated_cash := 0
    current_value_with_cash := 100
    total_should_save := 100
    total_return := 0
    return_pct := 0
    num_purchases := 1
    total_days := 1
    dip_days := 1
    missed_opportunities := 0
    purchases := [demoDipPurchase] }

/-- Uniform demo bar used for scheduler examples. -/
def schedBar (y m d : ℕ) : Bar :=
  { date := ⟨y, m, d⟩, op := 100, high := 100, low := 100, close := 100, volume := 1 }

/-- Demo month with trading dates [3, 4, 5, 8, 9]. -/
def schedJanBars : List Bar :=
  [schedBar 2024 1 3, schedBar 2024 1 4, schedBar 2024 1 5,
    schedBar 2024 1 8, schedBar 2024 1 9]

/-- Demo month whose trading dates end at 28. -/
def schedFebBars : List Bar :=
  [schedBar 2024 2 3, schedBar 2024 2 10, schedBar 2024 2 28]

/-- Relation between consecutive purchase-log entries used for the
monotonicity guarantee. -/
def dcaChainR (p q : DcaPurchase) : Prop :=
  p.total_invested ≤ q.total_invested ∧ p.total_coins ≤ q.total_coins

/-- Concrete Simple DCA metrics for the comparator counterexample: wins on
average cost and on utilization only. -/
def dcaR7 : DcaResults :=
  { total_invested := 1000
    total_coins := 1
    avg_cost := 50
    current_price := 100
    current_value := 100
    total_return := 0
    return_pct := 5
    num_purchases := 1
    purchases := [] }

/-- Concrete Buy the Dip metrics for the comparator counterexample: wins on
units and on return only. -/
def dipR7 : DipResults :=
  { total_invested := 500
    total_coins := 2
    avg_cost := 60
    current_price := 100
    current_value := 200
    accumulated_cash := 0
    current_value_with_cash := 200
    total_should_save := 1000
    total_return := 0
    return_pct := 10
    num_purchases := 1
    total_days := 3
    dip_days := 1
    missed_opportunities := 0
    purchases := [] }

/-- Two January 2024 bars for the one-bar-month counterexample. -/
def janC8BarA : Bar :=
  { date := ⟨2024, 1, 10⟩, op := 100, high := 120, low := 95, close := 110, volume := 1 }

/-- Second January 2024 bar. -/
def janC8BarB : Bar :=
  { date := ⟨2024, 1, 20⟩, op := 110, high := 115, low := 90, close := 100, volume := 1 }

/-- The single February 2024 bar: a month with exactly one bar, with a 10
percent intrabar rise. -/
def febC8Bar : Bar :=
  { date := ⟨2024, 2, 15⟩, op := 100, high := 112, low := 99, close := 110, volume := 1 }

/-- Series whose February has exactly one bar. -/
def dfC8 : List Bar := [janC8BarA, janC8BarB, febC8Bar]

/-- A July bar followed by an August bar: the first August bar's daily
return must be computed against the July close. -/
def dfC9 : List Bar :=
  [{ date := ⟨2024, 7, 31⟩, op := 100, high := 101, low := 99, close := 100, volume := 1 },
    { date := ⟨2024, 8, 1⟩, op := 100, high := 111, low := 99, close := 110, volume := 1 }]

theorem Date.le_def (a b : Date) :
    a ≤ b ↔ a.y < b.y ∨ (a.y = b.y ∧ (a.m < b.m ∨ (a.m = b.m ∧ a.d ≤ b.d))) :=
  Iff.rfl

theorem sumInv_append (ps qs : List PurchaseCore) :
    sumInv (ps ++ qs) = sumInv ps + sumInv qs := by
  simp [sumInv]

theorem sumCoins_append (ps qs : List PurchaseCore) :
    sumCoins (ps ++ qs) = sumCoins ps + sumCoins qs := by
  simp [sumCoins]

theorem cumOk_append (ps : List PurchaseCore) : ∀ (inv coins : ℚ) (p : PurchaseCore),
    cumOk inv coins ps →
    p.total_invested = inv + sumInv ps + p.investment →
    p.total_coins = coins + sumCoins ps + p.coins_bought →
    p.avg_price = p.total_invested / p.total_coins →
    cumOk inv coins (ps ++ [p]) := by
  induction ps with
  | nil =>
      intro inv coins p _ h1 h2 h3
      refine ⟨?_, ?_, h3, trivial⟩
      · simpa [sumInv] using h1
      · simpa [sumCoins] using h2
  | cons q qs ih =>
      intro inv coins p hq h1 h2 h3
      obtain ⟨hq1, hq2, hq3, hq4⟩ := hq
      refine ⟨hq1, hq2, hq3, ?_⟩
      refine ih _ _ _ hq4 ?_ ?_ h3
      · rw [hq1]
        rw [show sumInv (q :: qs) = q.investment + sumInv qs by simp [sumInv]] at h1
        linarith
      · rw [hq2]
        rw [show sumCoins (q :: qs) = q.coins_bought + sumCoins qs by simp [sumCoins]] at h2
        linarith

theorem cumOk_get (ps : List PurchaseCore) : ∀ (inv coins : ℚ),
    cumOk inv coins ps →
    ∀ i (hi : i < ps.length),
      (ps.get ⟨i, hi⟩).total_invested = inv + sumInv (ps.take (i + 1)) ∧
      (ps.get ⟨i, hi⟩).total_coins = coins + sumCoins (ps.take (i + 1)) ∧
      (ps.get ⟨i, hi⟩).avg_price
        = (ps.get ⟨i, hi⟩).total_invested / (ps.get ⟨i, hi⟩).total_coins := by
  induction ps with
  | nil => intro inv coins _ i hi; simp at hi
  | cons q qs ih =>
      intro inv coins hq i hi
      obtain ⟨hq1, hq2, hq3, hq4⟩ := hq
      cases i with
      | zero =>
          refine ⟨?_, ?_, hq3⟩
          · simpa [sumInv] using hq1
          · simpa [sumCoins] using hq2
      | succ j =>
          have hj : j < qs.length := by simpa using hi
          obtain ⟨h1, h2, h3⟩ := ih q.total_invested q.total_coins hq4 j hj
          refine ⟨?_, ?_, ?_⟩
          · rw [show ((q :: qs).get ⟨j + 1, hi⟩) = qs.get ⟨j, hj⟩ from rfl, h1, hq1]
            rw [show sumInv ((q :: qs).take (j + 1 + 1)) = q.investment + sumInv (qs.take (j + 1)) by
              simp [sumInv]]
            ring
          · rw [show ((q :: qs).get ⟨j + 1, hi⟩) = qs.get ⟨j, hj⟩ from rfl, h2, hq2]
            rw [show sumCoins ((q :: qs).take (j + 1 + 1)) = q.coins_bought + sumCoins (qs.take (j + 1)) by
              simp [sumCoins]]
            ring
          · exact h3

theorem sumInv_singleton (p : PurchaseCore) : sumInv [p] = p.investment := by
  simp [sumInv]

theorem sumCoins_singleton (p : PurchaseCore) : sumCoins [p] = p.coins_bought := by
  simp [sumCoins]

theorem dcaStep_cons (df : List Bar) (monthly : ℚ) (day : ℕ) (s : DcaState)
    (ym : ℕ × ℕ) (h : dcaConsInv s) : dcaConsInv (dcaStep df monthly day s ym) := by
  unfold dcaStep
  split
  · exact h
  · obtain ⟨h1, h2, h3⟩ := h
    refine ⟨?_, ?_, ?_⟩
    · simp only [List.map_append, List.map_cons, List.map_nil]
      refine cumOk_append _ 0 0 _ h1 ?_ ?_ rfl
      · show s.total_invested + monthly
          = 0 + sumInv (s.purchases.map DcaPurchase.core) + monthly
        rw [← h2]; ring
      · show s.total_coins + monthly / _
          = 0 + sumCoins (s.purchases.map DcaPurchase.core) + monthly / _
        rw [← h3]; ring
    · simp only [List.map_append, List.map_cons, List.map_nil, sumInv_append,
        sumInv_singleton]
      show s.total_invested + monthly
        = sumInv (s.purchases.map DcaPurchase.core) + monthly
      rw [h2]
    · simp only [List.map_append, List.map_cons, List.map_nil, sumCoins_append,
        sumCoins_singleton]
      show s.total_coins + monthly / _
        = sumCoins (s.purchases.map DcaPurchase.core) + monthly / _
      rw [h3]

theorem dca_foldl_cons (df : List Bar) (monthly : ℚ) (day : ℕ)
    (l : List (ℕ × ℕ)) : ∀ s : DcaState, dcaConsInv s →
    dcaConsInv (l.foldl (dcaStep df monthly day) s) := by
  induction l with
  | nil => intro s h; exact h
  | cons ym rest ih =>
      intro s h
      exact ih _ (dcaStep_cons df monthly day s ym h)

theorem dipStep_cons (threshold daily_savings : ℚ) (s : DipState) (b : Bar)
    (hb : 0 < b.close) (h : dipConsInv s) :
    dipConsInv (dipStep threshold daily_savings s b) := by
  simp only [dipStep]
  split
  · split
    · obtain ⟨h1, h2, h3, h4⟩ := h
      rename_i hcash
      have hcoins : 0 < (s.accumulated_cash + daily_savings) / b.close :=
        div_pos (by linarith) hb
      have htc : 0 < s.total_coins + (s.accumulated_cash + daily_savings) / b.close := by
        linarith
      refine ⟨?_, ?_, ?_, ?_⟩
      · simp only [List.map_append, List.map_cons, List.map_nil]
        refine cumOk_append _ 0 0 _ h1 ?_ ?_ ?_
        · show s.total_invested + (s.accumulated_cash + daily_savings)
            = 0 + sumInv (s.purchases.map DipPurchase.core)
                + (s.accumulated_cash + daily_savings)
          rw [← h2]; ring
        · show s.total_coins + (s.accumulated_cash + daily_savings) / b.close
            = 0 + sumCoins (s.purchases.map DipPurchase.core)
                + (s.accumulated_cash + daily_savings) / b.close
          rw [← h3]; ring
        · show (if 0 < s.total_coins + (s.accumulated_cash + daily_savings) / b.close
              then _ / _ else (0:ℚ)) = _ / _
          rw [if_pos htc]
          rfl
      · simp only [List.map_append, List.map_cons, List.map_nil, sumInv_append,
          sumInv_singleton]
        show s.total_invested + (s.accumulated_cash + daily_savings)
          = sumInv (s.purchases.map DipPurchase.core)
              + (s.accumulated_cash + daily_savings)
        rw [h2]
      · simp only [List.map_append, List.map_cons, List.map_nil, sumCoins_append,
          sumCoins_singleton]
        show s.total_coins + (s.accumulated_cash + daily_savings) / b.close
          = sumCoins (s.purchases.map DipPurchase.core)
              + (s.accumulated_cash + daily_savings) / b.close
        rw [h3]
      · show (0:ℚ) ≤ s.total_coins + (s.accumulated_cash + daily_savings) / b.close
        linarith
    · exact h
  · exact h

theorem dip_foldl_cons (threshold daily_savings : ℚ) (l : List Bar)
    (hpos : ∀ b ∈ l, 0 < b.close) : ∀ s : DipState, dipConsInv s →
    dipConsInv (l.foldl (dipStep threshold daily_savings) s) := by
  induction l with
  | nil => intro s h; exact h
  | cons b rest ih =>
      intro s h
      exact ih (fun c hc => hpos c (List.mem_cons_of_mem _ hc)) _
        (dipStep_cons threshold daily_savings s b (hpos b (List.mem_cons_self b rest)) h)

theorem run_dca_some (df : List Bar) (monthly : ℚ) (day : ℕ) (res : DcaResults)
    (h : run_dca df monthly day = some res) :
    res.purchases = ((uniqueMonths df).foldl (dcaStep df monthly day) {}).purchases ∧
    res.total_invested = ((uniqueMonths df).foldl (dcaStep df monthly day) {}).total_invested ∧
    res.total_coins = ((uniqueMonths df).foldl (dcaStep df monthly day) {}).total_coins ∧
    res.num_purchases = res.purchases.length ∧
    res.current_price = lastClose df ∧
    res.current_value = res.total_coins * lastClose df ∧
    res.total_return = res.current_value - res.total_invested ∧
    res.return_pct
      = (if res.total_invested > 0 then res.total_return / res.total_invested * 100 else 0) ∧
    res.avg_cost
      = (if res.total_coins > 0 then res.total_invested / res.total_coins else 0) := by
  simp only [run_dca] at h
  split at h
  · exact absurd h (by simp)
  · obtain rfl := Option.some.inj h
    exact ⟨rfl, rfl, rfl, rfl, rfl, rfl, rfl, rfl, rfl⟩

theorem run_strategy_some (df : List Bar) (monthly_savings threshold : ℚ)
    (res : DipResults) (h : run_strategy df monthly_savings threshold = some res) :
    res.purchases
      = (df.foldl (dipStep threshold (monthly_savings / 30)) {}).purchases ∧
    res.total_invested
      = (df.foldl (dipStep threshold (monthly_savings / 30)) {}).total_invested ∧
    res.total_coins
      = (df.foldl (dipStep threshold (monthly_savings / 30)) {}).total_coins ∧
    res.accumulated_cash
      = (df.foldl (dipStep threshold (monthly_savings / 30)) {}).accumulated_cash ∧
    res.dip_days
      = (df.foldl (dipStep threshold (monthly_savings / 30)) {}).dip_days ∧
    res.missed_opportunities
      = (df.foldl (dipStep threshold (monthly_savings / 30)) {}).missed_opportunities ∧
    res.num_purchases = res.purchases.length ∧
    res.total_days = df.length ∧
    res.total_should_save = (df.length : ℚ) * (monthly_savings / 30) ∧
    res.current_price = lastClose df ∧
    res.current_value = res.total_coins * lastClose df ∧
    res.current_value_with_cash = res.current_value + res.accumulated_cash ∧
    res.total_return = res.current_value_with_cash - res.total_should_save ∧
    res.return_pct
      = (if res.total_should_save > 0
          then res.total_return / res.total_should_save * 100 else 0) ∧
    res.avg_cost
      = (if res.total_coins > 0 then res.total_invested / res.total_coins else 0) := by
  simp only [run_strategy] at h
  split at h
  · exact absurd h (by simp)
  · obtain rfl := Option.some.inj h
    exact ⟨rfl, rfl, rfl, rfl, rfl, rfl, rfl, rfl, rfl, rfl, rfl, rfl, rfl, rfl, rfl⟩

theorem dca_core_map_inv (ps : List DcaPurchase) :
    sumInv (ps.map DcaPurchase.core) = (ps.map DcaPurchase.investment).sum := by
  unfold sumInv
  rw [List.map_map]
  rfl

theorem dca_core_map_coins (ps : List DcaPurchase) :
    sumCoins (ps.map DcaPurchase.core) = (ps.map DcaPurchase.coins_bought).sum := by
  unfold sumCoins
  rw [List.map_map]
  rfl

theorem dip_core_map_inv (ps : List DipPurchase) :
    sumInv (ps.map DipPurchase.core) = (ps.map DipPurchase.investment).sum := by
  unfold sumInv
  rw [List.map_map]
  rfl

theorem dip_core_map_coins (ps : List DipPurchase) :
    sumCoins (ps.map DipPurchase.core) = (ps.map DipPurchase.coins_bought).sum := by
  unfold sumCoins
  rw [List.map_map]
  rfl

/-- C1. Conservation of money and units: for every completed run of either
investor engine (SimpleDCA.run_dca or BuyTheDip.run_strategy) that returns
a result, the sum of the per-purchase investment amounts over the purchase
log equals the reported total_invested exactly, the sum of the
per-purchase coins_bought equals the reported total_coins exactly, and
after every purchase event the recorded cumulative totals are exactly the
prefix sums of the log and the recorded running average price equals the
cumulative invested total divided by the cumulative units total.  The dip
half assumes the data-model invariant of positive close prices. -/
theorem ctb_C1 :
    (∀ (df : List Bar) (monthly : ℚ) (day : ℕ) (res : DcaResults),
      run_dca df monthly day = some res →
      (res.purchases.map DcaPurchase.investment).sum = res.total_invested ∧
      (res.purchases.map DcaPurchase.coins_bought).sum = res.total_coins ∧
      (∀ i (hi : i < res.purchases.length),
        (res.purchases.get ⟨i, hi⟩).total_invested
          = ((res.purchases.take (i + 1)).map DcaPurchase.investment).sum ∧
        (res.purchases.get ⟨i, hi⟩).total_coins
          = ((res.purchases.take (i + 1)).map DcaPurchase.coins_bought).sum ∧
        (res.purchases.get ⟨i, hi⟩).avg_price
          = (res.purchases.get ⟨i, hi⟩).total_invested
              / (res.purchases.get ⟨i, hi⟩).total_coins)) ∧
    (∀ (df : List Bar) (monthly_savings threshold : ℚ) (res : DipResults),
      (∀ b ∈ df, 0 < b.close) →
      run_strategy df monthly_savings threshold = some res →
      (res.purchases.map DipPurchase.investment).sum = res.total_invested ∧
      (res.purchases.map DipPurchase.coins_bought).sum = res.total_coins ∧
      (∀ i (hi : i < res.purchases.length),
        (res.purchases.get ⟨i, hi⟩).total_invested
          = ((res.purchases.take (i + 1)).map DipPurchase.investment).sum ∧
        (res.purchases.get ⟨i, hi⟩).total_coins
          = ((res.purchases.take (i + 1)).map DipPurchase.coins_bought).sum ∧
        (res.purchases.get ⟨i, hi⟩).avg_price
          = (res.purchases.get ⟨i, hi⟩).total_invested
              / (res.purchases.get ⟨i, hi⟩).total_coins)) := by
  constructor
  · intro df monthly day res hrun
    obtain ⟨hp, hti, htc, -⟩ := run_dca_some df monthly day res hrun
    obtain ⟨hcum, hs1, hs2⟩ :=
      dca_foldl_cons df monthly day (uniqueMonths df) {}
        ⟨trivial, by simp [sumInv], by simp [sumCoins]⟩
    rw [← hp] at hcum hs1 hs2
    refine ⟨?_, ?_, ?_⟩
    · rw [hti, hs1, dca_core_map_inv]
    · rw [htc, hs2, dca_core_map_coins]
    · intro i hi
      have hlen : i < (res.purchases.map DcaPurchase.core).length := by simpa using hi
      obtain ⟨e1, e2, e3⟩ := cumOk_get _ 0 0 hcum i hlen
      have hget : (res.purchases.map DcaPurchase.core).get ⟨i, hlen⟩
          = (res.purchases.get ⟨i, hi⟩).core := by
        simp [List.get_eq_getElem]
      rw [hget, ← List.map_take, dca_core_map_inv] at e1
      rw [hget, ← List.map_take, dca_core_map_coins] at e2
      rw [hget] at e3
      refine ⟨?_, ?_, ?_⟩
      · simpa [DcaPurchase.core] using e1
      · simpa [DcaPurchase.core] using e2
      · simpa [DcaPurchase.core] using e3
  · intro df monthly_savings threshold res hpos hrun
    obtain ⟨hp, hti, htc, -⟩ := run_strategy_some df monthly_savings threshold res hrun
    obtain ⟨hcum, hs1, hs2, -⟩ :=
      dip_foldl_cons threshold (monthly_savings / 30) df hpos {}
        ⟨trivial, by simp [sumInv], by simp [sumCoins], le_refl 0⟩
    rw [← hp] at hcum hs1 hs2
    refine ⟨?_, ?_, ?_⟩
    · rw [hti, hs1, dip_core_map_inv]
    · rw [htc, hs2, dip_core_map_coins]
    · intro i hi
      have hlen : i < (res.purchases.map DipPurchase.core).length := by simpa using hi
      obtain ⟨e1, e2, e3⟩ := cumOk_get _ 0 0 hcum i hlen
      have hget : (res.purchases.map DipPurchase.core).get ⟨i, hlen⟩
          = (res.purchases.get ⟨i, hi⟩).core := by
        simp [List.get_eq_getElem]
      rw [hget, ← List.map_take, dip_core_map_inv] at e1
      rw [hget, ← List.map_take, dip_core_map_coins] at e2
      rw [hget] at e3
      refine ⟨?_, ?_, ?_⟩
      · simpa [DipPurchase.core] using e1
      · simpa [DipPurchase.core] using e2
      · simpa [DipPurchase.core] using e3

theorem run_dca_demo : run_dca [demoDcaBar] 3000 5 = some demoDcaRes := by
  simp +decide [run_dca, uniqueMonths, dcaStep, monthData, buyBar, matchingBars,
    monthKey, lastClose, List.insertionSort, List.orderedInsert, List.dedup,
    List.pwFilter, List.filter, demoDcaBar, demoDcaRes, demoDcaPurchase]
  norm_num

theorem run_strategy_demo : run_strategy [demoDipBar] 3000 (-5) = some demoDipRes := by
  simp +decide [run_strategy, dipStep, intrabarReturn, lastClose, demoDipBar,
    demoDipRes, demoDipPurchase]
  norm_num

/-- Witness for C1: both engines run on concrete one-bar series and the
conservation sums hold on the concrete logs. -/
theorem ctb_C1_witness :
    (∃ res, run_dca [demoDcaBar] 3000 5 = some res ∧
      (res.purchases.map DcaPurchase.investment).sum = res.total_invested ∧
      (res.purchases.map DcaPurchase.coins_bought).sum = res.total_coins) ∧
    (∃ res, run_strategy [demoDipBar] 3000 (-5) = some res ∧
      (res.purchases.map DipPurchase.investment).sum = res.total_invested ∧
      (res.purchases.map DipPurchase.coins_bought).sum = res.total_coins) := by
  have hpos : ∀ b ∈ [demoDipBar], 0 < b.close := by
    intro b hb
    simp only [List.mem_singleton] at hb
    subst hb
    norm_num [demoDipBar]
  refine ⟨⟨demoDcaRes, run_dca_demo, ?_, ?_⟩, ⟨demoDipRes, run_strategy_demo, ?_, ?_⟩⟩
  · exact (ctb_C1.1 [demoDcaBar] 3000 5 demoDcaRes run_dca_demo).1
  · exact (ctb_C1.1 [demoDcaBar] 3000 5 demoDcaRes run_dca_demo).2.1
  · exact (ctb_C1.2 [demoDipBar] 3000 (-5) demoDipRes hpos run_strategy_demo).1
  · exact (ctb_C1.2 [demoDipBar] 3000 (-5) demoDipRes hpos run_strategy_demo).2.1

/-- C2. Dip-engine step function: on every bar the accumulated cash first
grows by monthlyStipend/30; exactly when the bar's intrabar return is at
or below the threshold the dip-day counter increments, and then either
(cash at least 100) all accumulated cash is spent at the bar's close,
a purchase with unitsAcquired = cash/close is appended and cash resets to
0, or (cash below 100) the missed-opportunity counter increments and the
cash keeps accruing; on non-dip bars only the cash accrues. -/
theorem ctb_C2 (monthly_savings threshold : ℚ) (s : DipState) (b : Bar) :
    (¬ intrabarReturn b ≤ threshold →
      dipStep threshold (monthly_savings / 30) s b
        = { s with accumulated_cash := s.accumulated_cash + monthly_savings / 30 }) ∧
    (intrabarReturn b ≤ threshold →
      (dipStep threshold (monthly_savings / 30) s b).dip_days = s.dip_days + 1) ∧
    (intrabarReturn b ≤ threshold →
      s.accumulated_cash + monthly_savings / 30 ≥ 100 →
      (dipStep threshold (monthly_savings / 30) s b).purchases
        = s.purchases ++ [{
            date := b.date
            price := b.close
            daily_return := intrabarReturn b
            investment := s.accumulated_cash + monthly_savings / 30
            coins_bought := (s.accumulated_cash + monthly_savings / 30) / b.close
            total_invested := s.total_invested + (s.accumulated_cash + monthly_savings / 30)
            total_coins := s.total_coins + (s.accumulated_cash + monthly_savings / 30) / b.close
            avg_price := if s.total_coins + (s.accumulated_cash + monthly_savings / 30) / b.close > 0
              then (s.total_invested + (s.accumulated_cash + monthly_savings / 30))
                    / (s.total_coins + (s.accumulated_cash + monthly_savings / 30) / b.close)
              else 0 }] ∧
      (dipStep threshold (monthly_savings / 30) s b).accumulated_cash = 0 ∧
      (dipStep threshold (monthly_savings / 30) s b).missed_opportunities
        = s.missed_opportunities) ∧
    (intrabarReturn b ≤ threshold →
      s.accumulated_cash + monthly_savings / 30 < 100 →
      (dipStep threshold (monthly_savings / 30) s b).missed_opportunities
        = s.missed_opportunities + 1 ∧
      (dipStep threshold (monthly_savings / 30) s b).accumulated_cash
        = s.accumulated_cash + monthly_savings / 30 ∧
      (dipStep threshold (monthly_savings / 30) s b).purchases = s.purchases) := by
  refine ⟨?_, ?_, ?_, ?_⟩
  · intro h
    simp only [dipStep]
    rw [if_neg h]
  · intro h
    simp only [dipStep]
    rw [if_pos h]
    by_cases hc : s.accumulated_cash + monthly_savings / 30 ≥ 100
    · rw [if_pos hc]
    · rw [if_neg hc]
  · intro h hc
    simp only [dipStep]
    rw [if_pos h, if_pos hc]
    exact ⟨rfl, rfl, rfl⟩
  · intro h hc
    simp only [dipStep]
    rw [if_pos h, if_neg (not_le.mpr hc)]
    exact ⟨rfl, rfl, rfl⟩

/-- Witness for C2: the demo dip bar with the empty starting state takes
the purchase branch. -/
theorem ctb_C2_witness :
    intrabarReturn demoDipBar ≤ -5 ∧
    ({} : DipState).accumulated_cash + 3000 / 30 ≥ 100 ∧
    (dipStep (-5) (3000 / 30) {} demoDipBar).dip_days = ({} : DipState).dip_days + 1 ∧
    (dipStep (-5) (3000 / 30) {} demoDipBar).accumulated_cash = 0 ∧
    (dipStep (-5) (3000 / 30) {} demoDipBar).missed_opportunities
      = ({} : DipState).missed_opportunities := by
  have h1 : intrabarReturn demoDipBar ≤ -5 := by norm_num [intrabarReturn, demoDipBar]
  have h2 : ({} : DipState).accumulated_cash + 3000 / 30 ≥ (100 : ℚ) := by
    show (0 : ℚ) + 3000 / 30 ≥ 100
    norm_num
  refine ⟨h1, h2, (ctb_C2 3000 (-5) {} demoDipBar).2.1 h1,
    ((ctb_C2 3000 (-5) {} demoDipBar).2.2.1 h1 h2).2.1,
    ((ctb_C2 3000 (-5) {} demoDipBar).2.2.1 h1 h2).2.2⟩

theorem Date.le_refl (d : Date) : d ≤ d :=
  Or.inr ⟨rfl, Or.inr ⟨rfl, Nat.le_refl _⟩⟩

/-- C3. CalendarScheduler resolution: on a chronologically sorted non-empty
month the resolved purchase bar is the earliest available bar dated on or
after the target date; when no available date reaches the target, it is
the last available bar of the month.  In particular, trading dates
[3,4,5,8,9] with target day 7 resolve to day 8, and target day 31 on a
month ending at day 28 resolves to day 28. -/
theorem ctb_C3 :
    (∀ (monthBars : List Bar) (target : Date),
      List.Pairwise (fun a b : Bar => a.date ≤ b.date) monthBars →
      monthBars ≠ [] →
      ∃ b, buyBar monthBars target = some b ∧ b ∈ monthBars ∧
        ((∃ c ∈ monthBars, target ≤ c.date) →
          target ≤ b.date ∧ ∀ c ∈ monthBars, target ≤ c.date → b.date ≤ c.date) ∧
        ((∀ c ∈ monthBars, ¬ target ≤ c.date) → monthBars.getLast? = some b)) ∧
    buyBar schedJanBars ⟨2024, 1, 7⟩ = some (schedBar 2024 1 8) ∧
    buyBar schedFebBars ⟨2024, 2, 31⟩ = some (schedBar 2024 2 28) := by
  refine ⟨?_, by rfl, by rfl⟩
  intro monthBars target hsorted hne
  cases hm : matchingBars monthBars target with
  | cons b rest =>
      have hb : b ∈ matchingBars monthBars target := by
        rw [hm]; exact List.mem_cons_self b rest
      have hbmem : b ∈ monthBars := by
        have := hb
        simp only [matchingBars] at this
        exact List.mem_of_mem_filter this
      have hbge : target ≤ b.date := by
        have := hb
        simp only [matchingBars] at this
        exact of_decide_eq_true (List.mem_filter.mp this).2
      refine ⟨b, ?_, hbmem, ?_, ?_⟩
      · unfold buyBar
        rw [hm]
      · intro _
        refine ⟨hbge, ?_⟩
        intro c hc htc
        have hcf : c ∈ matchingBars monthBars target := by
          simp only [matchingBars]
          exact List.mem_filter.mpr ⟨hc, decide_eq_true htc⟩
        rw [hm] at hcf
        rcases List.mem_cons.mp hcf with rfl | hcr
        · exact Date.le_refl _
        · have hpf : List.Pairwise (fun a b : Bar => a.date ≤ b.date)
              (matchingBars monthBars target) := by
            simp only [matchingBars]
            exact hsorted.filter _
          rw [hm] at hpf
          exact (List.pairwise_cons.mp hpf).1 c hcr
      · intro hall
        exact absurd hbge (hall b hbmem)
  | nil =>
      refine ⟨monthBars.getLast hne, ?_, List.getLast_mem hne, ?_, ?_⟩
      · unfold buyBar
        rw [hm]
        exact List.getLast?_eq_getLast _ hne
      · rintro ⟨c, hc, htc⟩
        have hcf : c ∈ matchingBars monthBars target := by
          simp only [matchingBars]
          exact List.mem_filter.mpr ⟨hc, decide_eq_true htc⟩
        rw [hm] at hcf
        exact absurd hcf (List.not_mem_nil c)
      · intro _
        exact List.getLast?_eq_getLast _ hne

/-- Witness for C3: the general resolution statement applied to the month
with trading dates [3,4,5,8,9]. -/
theorem ctb_C3_witness :
    ∃ b, buyBar schedJanBars ⟨2024, 1, 7⟩ = some b ∧ b ∈ schedJanBars ∧
      ((∃ c ∈ schedJanBars, (⟨2024, 1, 7⟩ : Date) ≤ c.date) →
        (⟨2024, 1, 7⟩ : Date) ≤ b.date ∧
          ∀ c ∈ schedJanBars, (⟨2024, 1, 7⟩ : Date) ≤ c.date → b.date ≤ c.date) ∧
      ((∀ c ∈ schedJanBars, ¬ (⟨2024, 1, 7⟩ : Date) ≤ c.date) →
        schedJanBars.getLast? = some b) :=
  ctb_C3.1 schedJanBars ⟨2024, 1, 7⟩ (by decide) (by decide)

theorem buyBar_some_of_ne_nil (monthBars : List Bar) (target : Date)
    (h : monthBars ≠ []) :
    ∃ b, buyBar monthBars target = some b ∧ b ∈ monthBars := by
  unfold buyBar
  cases hm : matchingBars monthBars target with
  | cons b rest =>
      refine ⟨b, rfl, ?_⟩
      have hb : b ∈ matchingBars monthBars target := by
        rw [hm]; exact List.mem_cons_self b rest
      simp only [matchingBars] at hb
      exact List.mem_of_mem_filter hb
  | nil =>
      exact ⟨monthBars.getLast h, List.getLast?_eq_getLast _ h, List.getLast_mem h⟩

theorem mem_uniqueMonths_monthData (df : List Bar) (ym : ℕ × ℕ)
    (h : ym ∈ uniqueMonths df) : monthData df ym.1 ym.2 ≠ [] := by
  obtain ⟨y, m⟩ := ym
  have h1 : (y, m) ∈ (df.map monthKey).dedup :=
    ((df.map monthKey).dedup.perm_insertionSort monthLe).mem_iff.mp h
  have h2 : (y, m) ∈ df.map monthKey := List.mem_dedup.mp h1
  obtain ⟨b, hb, hkey⟩ := List.mem_map.mp h2
  simp only [monthKey, Prod.mk.injEq] at hkey
  apply List.ne_nil_of_mem (a := b)
  simp only [monthData, List.mem_filter]
  exact ⟨hb, by simp [hkey.1, hkey.2]⟩

theorem dca_foldl_main (df : List Bar) (monthly : ℚ) (day : ℕ)
    (hm : 0 ≤ monthly) (hpos : ∀ b ∈ df, 0 ≤ b.close) :
    ∀ (l : List (ℕ × ℕ)) (s : DcaState),
      (∀ ym ∈ l, monthData df ym.1 ym.2 ≠ []) →
      (List.Chain' dcaChainR s.purchases ∧
        ∀ p ∈ s.purchases.getLast?, p.total_invested = s.total_invested ∧
          p.total_coins = s.total_coins) →
      List.Chain' dcaChainR ((l.foldl (dcaStep df monthly day) s).purchases) ∧
      (l.foldl (dcaStep df monthly day) s).purchases.map (fun p => (p.year, p.month))
        = s.purchases.map (fun p => (p.year, p.month)) ++ l ∧
      (l.foldl (dcaStep df monthly day) s).total_invested
        = s.total_invested + l.length * monthly ∧
      (∀ p ∈ (l.foldl (dcaStep df monthly day) s).purchases, p ∈ s.purchases ∨
        (p.investment = monthly ∧ p.coins_bought = monthly / p.price ∧
          ∃ b, buyBar (monthData df p.year p.month) ⟨p.year, p.month, day⟩ = some b ∧
            p.price = b.close ∧ p.date = b.date)) := by
  intro l
  induction l with
  | nil =>
      intro s _ hs
      refine ⟨hs.1, by simp, by simp, ?_⟩
      intro p hp
      exact Or.inl hp
  | cons ym rest ih =>
      intro s hdata hs
      obtain ⟨b, hbb, hbmem⟩ :=
        buyBar_some_of_ne_nil (monthData df ym.1 ym.2) ⟨ym.1, ym.2, day⟩
          (hdata ym (List.mem_cons_self ym rest))
      have hbdf : b ∈ df := by
        simp only [monthData] at hbmem
        exact List.mem_of_mem_filter hbmem
      have hstep : dcaStep df monthly day s ym =
          { total_invested := s.total_invested + monthly
            total_coins := s.total_coins + monthly / b.close
            purchases := s.purchases ++ [{
              date := b.date
              year := ym.1
              month := ym.2
              price := b.close
              investment := monthly
              coins_bought := monthly / b.close
              total_invested := s.total_invested + monthly
              total_coins := s.total_coins + monthly / b.close
              avg_price := (s.total_invested + monthly)
                / (s.total_coins + monthly / b.close) }] } := by
        unfold dcaStep
        rw [hbb]
      have hcoins : (0 : ℚ) ≤ monthly / b.close := div_nonneg hm (hpos b hbdf)
      have hchain : List.Chain' dcaChainR ((dcaStep df monthly day s ym).purchases) := by
        rw [hstep]
        apply List.Chain'.append hs.1 (List.chain'_singleton _)
        intro x hx y hy
        simp only [List.head?_cons, Option.mem_def, Option.some.injEq] at hy
        subst hy
        obtain ⟨e1, e2⟩ := hs.2 x hx
        exact ⟨by rw [e1]; linarith, by rw [e2]; linarith⟩
      have hlast : ∀ p ∈ (dcaStep df monthly day s ym).purchases.getLast?,
          p.total_invested = (dcaStep df monthly day s ym).total_invested ∧
          p.total_coins = (dcaStep df monthly day s ym).total_coins := by
        rw [hstep]
        intro p hp
        simp only [List.getLast?_concat, Option.mem_def, Option.some.injEq] at hp
        subst hp
        exact ⟨rfl, rfl⟩
      obtain ⟨c1, c2, c3, c4⟩ := ih (dcaStep df monthly day s ym)
        (fun q hq => hdata q (List.mem_cons_of_mem _ hq)) ⟨hchain, hlast⟩
      refine ⟨c1, ?_, ?_, ?_⟩
      · rw [List.foldl_cons, c2, hstep]
        simp
      · rw [List.foldl_cons, c3, hstep]
        simp only [List.length_cons]
        push_cast
        ring
      · rw [List.foldl_cons]
        intro p hp
        rcases c4 p hp with hmem | hform
        · rw [hstep] at hmem
          simp only [List.mem_append, List.mem_singleton] at hmem
          rcases hmem with hmem | rfl
          · exact Or.inl hmem
          · refine Or.inr ⟨rfl, rfl, b, ?_, rfl, rfl⟩
            exact hbb
        · exact Or.inr hform

/-- C4. Scheduled DCA purchase cadence: every (year, month) pair present in
the series has a non-empty month group and yields exactly one purchase, in
sorted month order; each purchase spends exactly monthlyAmount at the
resolved bar's close (unitsAcquired = monthlyAmount / close), so
purchaseCount is the number of months with data and
totalInvested = purchaseCount * monthlyAmount, and the recorded cumulative
units and cash are non-decreasing across the purchase log. -/
theorem ctb_C4 (df : List Bar) (monthly : ℚ) (day : ℕ) (res : DcaResults)
    (hrun : run_dca df monthly day = some res)
    (hm : 0 ≤ monthly) (hpos : ∀ b ∈ df, 0 ≤ b.close) :
    (∀ ym ∈ uniqueMonths df, monthData df ym.1 ym.2 ≠ []) ∧
    res.purchases.map (fun p => (p.year, p.month)) = uniqueMonths df ∧
    res.num_purchases = (uniqueMonths df).length ∧
    res.total_invested = (uniqueMonths df).length * monthly ∧
    (∀ p ∈ res.purchases, p.investment = monthly ∧ p.coins_bought = monthly / p.price ∧
      ∃ b, buyBar (monthData df p.year p.month) ⟨p.year, p.month, day⟩ = some b ∧
        p.price = b.close ∧ p.date = b.date) ∧
    List.Chain' dcaChainR res.purchases := by
  obtain ⟨hp, hti, -, hnum, -⟩ := run_dca_some df monthly day res hrun
  obtain ⟨c1, c2, c3, c4⟩ := dca_foldl_main df monthly day hm hpos (uniqueMonths df) {}
    (fun ym hym => mem_uniqueMonths_monthData df ym hym)
    ⟨List.chain'_nil, by simp⟩
  rw [← hp] at c1 c2 c4
  rw [← hti] at c3
  have hmap : res.purchases.map (fun p => (p.year, p.month)) = uniqueMonths df := by
    simpa using c2
  have c4' : ∀ p ∈ res.purchases,
      p.investment = monthly ∧ p.coins_bought = monthly / p.price ∧
      ∃ b, buyBar (monthData df p.year p.month) ⟨p.year, p.month, day⟩ = some b ∧
        p.price = b.close ∧ p.date = b.date := by
    intro p hp
    rcases c4 p hp with hmem | hform
    · simp at hmem
    · exact hform
  refine ⟨fun ym hym => mem_uniqueMonths_monthData df ym hym, hmap, ?_, ?_, c4', c1⟩
  · rw [hnum, ← hmap, List.length_map]
  · simpa using c3

/-- Witness for C4: the one-month demo series makes exactly one purchase of
exactly the monthly amount. -/
theorem ctb_C4_witness :
    demoDcaRes.num_purchases = (uniqueMonths [demoDcaBar]).length ∧
    demoDcaRes.total_invested = ((uniqueMonths [demoDcaBar]).length : ℚ) * 3000 := by
  have hpos : ∀ b ∈ [demoDcaBar], (0 : ℚ) ≤ b.close := by
    intro b hb
    simp only [List.mem_singleton] at hb
    subst hb
    norm_num [demoDcaBar]
  exact ⟨(ctb_C4 [demoDcaBar] 3000 5 demoDcaRes run_dca_demo (by norm_num) hpos).2.2.1,
    (ctb_C4 [demoDcaBar] 3000 5 demoDcaRes run_dca_demo (by norm_num) hpos).2.2.2.1⟩

/-- Counterexample for C5: on a one-bar series SimpleDCA reports
returnPct = 0 (computed against cash actually spent), while the
should-have-saved denominator of the claim gives 2900. -/
theorem ctb_C5_counterexample :
    ∃ res, run_dca [demoDcaBar] 3000 5 = some res ∧
      res.return_pct = 0 ∧
      (res.current_value - specShouldSave [demoDcaBar] 3000)
          / specShouldSave [demoDcaBar] 3000 * 100 = 2900 ∧
      res.return_pct ≠ (res.current_value - specShouldSave [demoDcaBar] 3000)
          / specShouldSave [demoDcaBar] 3000 * 100 := by
  refine ⟨demoDcaRes, run_dca_demo, rfl, ?_, ?_⟩
  · show ((3000 : ℚ) - specShouldSave [demoDcaBar] 3000)
        / specShouldSave [demoDcaBar] 3000 * 100 = 2900
    norm_num [specShouldSave]
  · show (0 : ℚ) ≠ ((3000 : ℚ) - specShouldSave [demoDcaBar] 3000)
        / specShouldSave [demoDcaBar] 3000 * 100
    norm_num [specShouldSave]

/-- C5 (amended). Only BuyTheDip computes totalReturn and returnPct against
the should-have-saved amount totalBars × (monthlyStipend/30); SimpleDCA
computes them against the cash actually spent on purchases
(total_invested), not against a should-have-saved amount. -/
theorem ctb_C5 (df : List Bar) (monthly threshold : ℚ) (day : ℕ) :
    (∀ res, run_strategy df monthly threshold = some res →
      res.total_should_save = specShouldSave df monthly ∧
      res.total_return = res.current_value_with_cash - res.total_should_save ∧
      res.return_pct = (if res.total_should_save > 0
        then res.total_return / res.total_should_save * 100 else 0)) ∧
    (∀ res, run_dca df monthly day = some res →
      res.total_return = res.current_value - res.total_invested ∧
      res.return_pct = (if res.total_invested > 0
        then res.total_return / res.total_invested * 100 else 0)) := by
  constructor
  · intro res h
    obtain ⟨-, -, -, -, -, -, -, -, h9, -, -, -, h13, h14, -⟩ :=
      run_strategy_some df monthly threshold res h
    exact ⟨by rw [h9]; rfl, h13, h14⟩
  · intro res h
    obtain ⟨-, -, -, -, -, -, h7, h8, -⟩ := run_dca_some df monthly day res h
    exact ⟨h7, h8⟩

/-- Witness for C5 (amended), on the concrete demo runs. -/
theorem ctb_C5_witness :
    demoDipRes.total_should_save = specShouldSave [demoDipBar] 3000 ∧
    demoDcaRes.return_pct = (if demoDcaRes.total_invested > 0
      then demoDcaRes.total_return / demoDcaRes.total_invested * 100 else 0) :=
  ⟨((ctb_C5 [demoDipBar] 3000 (-5) 5).1 demoDipRes run_strategy_demo).1,
    ((ctb_C5 [demoDcaBar] 3000 (-5) 5).2 demoDcaRes run_dca_demo).2⟩

theorem dip_foldl_no_dip (threshold daily : ℚ) :
    ∀ l : List Bar, (∀ b ∈ l, ¬ intrabarReturn b ≤ threshold) →
    ∀ s : DipState, (l.foldl (dipStep threshold daily) s).purchases = s.purchases := by
  intro l
  induction l with
  | nil => intro _ s; rfl
  | cons b rest ih =>
      intro h s
      rw [List.foldl_cons, ih (fun c hc => h c (List.mem_cons_of_mem _ hc))]
      simp only [dipStep]
      rw [if_neg (h b (List.mem_cons_self b rest))]

/-- C6. Empty-result behavior: every run of BuyTheDip whose bar loop ends
with an empty purchase log — whether no bar breached the threshold or
every breaching bar found less than the 100 minimum of accumulated cash —
returns the explicit absent result None instead of raising; in particular
any series with no breaching bar yields None, and SimpleDCA (whose log is
empty exactly on an empty series) returns None on the empty series. -/
theorem ctb_C6 (df : List Bar) (monthly_savings threshold monthly : ℚ) (day : ℕ) :
    ((df.foldl (dipStep threshold (monthly_savings / 30)) {}).purchases = [] →
      run_strategy df monthly_savings threshold = none) ∧
    ((∀ b ∈ df, ¬ intrabarReturn b ≤ threshold) →
      run_strategy df monthly_savings threshold = none) ∧
    run_dca [] monthly day = none := by
  have hempty : (df.foldl (dipStep threshold (monthly_savings / 30)) {}).purchases = [] →
      run_strategy df monthly_savings threshold = none := by
    intro h
    simp only [run_strategy, h]
    rfl
  refine ⟨hempty, ?_, rfl⟩
  intro h
  exact hempty (dip_foldl_no_dip threshold (monthly_savings / 30) df h {})

/-- Witness for C6: a zero-purchase BuyTheDip run with a dip day but
insufficient cash (stipend 300 accrues only 10 on the breaching bar, below
the 100 minimum, so the day is a missed opportunity) returns None, and so
does a run whose series never breaches the threshold. -/
theorem ctb_C6_witness :
    (List.foldl (dipStep (-5) (300 / 30)) {} [demoDipBar]).purchases = [] ∧
    (List.foldl (dipStep (-5) (300 / 30)) {} [demoDipBar]).dip_days = 1 ∧
    (List.foldl (dipStep (-5) (300 / 30)) {} [demoDipBar]).missed_opportunities = 1 ∧
    run_strategy [demoDipBar] 300 (-5) = none ∧
    run_strategy [demoDcaBar] 3000 (-5) = none := by
  have hfold : List.foldl (dipStep (-5) (300 / 30)) {} [demoDipBar]
      = { total_invested := 0
          total_coins := 0
          accumulated_cash := 10
          purchases := []
          dip_days := 1
          missed_opportunities := 1 } := by
    simp +decide [dipStep, intrabarReturn, demoDipBar]
    norm_num
  refine ⟨by rw [hfold], by rw [hfold], by rw [hfold], ?_, ?_⟩
  · exact (ctb_C6 [demoDipBar] 300 (-5) 3000 5).1 (by rw [hfold])
  · refine (ctb_C6 [demoDcaBar] 3000 (-5) 3000 5).2.1 ?_
    intro b hb
    simp only [List.mem_singleton] at hb
    subst hb
    norm_num [intrabarReturn, demoDcaBar]

theorem dip_foldl_counters (threshold daily : ℚ) :
    ∀ (l : List Bar) (s : DipState),
      s.dip_days = s.purchases.length + s.missed_opportunities →
      (l.foldl (dipStep threshold daily) s).dip_days
        = (l.foldl (dipStep threshold daily) s).purchases.length
          + (l.foldl (dipStep threshold daily) s).missed_opportunities := by
  intro l
  induction l with
  | nil => intro s h; exact h
  | cons b rest ih =>
      intro s h
      rw [List.foldl_cons]
      apply ih
      simp only [dipStep]
      split
      · split
        · simp only [List.length_append, List.length_singleton]
          omega
        · simp only []
          omega
      · simpa using h

/-- C10. Dip-engine counter identity: after every completed run,
dipDayCount = purchaseCount + missedOpportunityCount exactly, hence
purchaseCount ≤ dipDayCount. -/
theorem ctb_C10 (df : List Bar) (monthly_savings threshold : ℚ) (res : DipResults)
    (hrun : run_strategy df monthly_savings threshold = some res) :
    res.dip_days = res.num_purchases + res.missed_opportunities ∧
    res.num_purchases ≤ res.dip_days := by
  obtain ⟨hp, -, -, -, hd, hmo, hnum, -⟩ :=
    run_strategy_some df monthly_savings threshold res hrun
  have hc := dip_foldl_counters threshold (monthly_savings / 30) df {} rfl
  constructor
  · rw [hd, hnum, hp, hmo]
    exact hc
  · rw [hd, hnum, hp]
    omega

/-- Witness for C10, on the concrete demo dip run. -/
theorem ctb_C10_witness :
    demoDipRes.dip_days = demoDipRes.num_purchases + demoDipRes.missed_opportunities ∧
    demoDipRes.num_purchases ≤ demoDipRes.dip_days :=
  ctb_C10 [demoDipBar] 3000 (-5) demoDipRes run_strategy_demo

/-- Counterexample for C7: with each strategy winning exactly two of the
four metrics, an unweighted tally would tie 2-2 (and the code's
first-maximal rule would then name Simple DCA), but the code's weighted
tally is 3-5 and it declares Buy the Dip the winner. -/
theorem ctb_C7_counterexample :
    specUnweightedScores dcaR7 dipR7 = (2, 2) ∧
    comparisonScores dcaR7 dipR7 = (3, 5) ∧
    (comparisonScores dcaR7 dipR7).1 ≠ (comparisonScores dcaR7 dipR7).2 ∧
    comparisonWinner dcaR7 dipR7 = Strategy.buyTheDip := by
  have h1 : ¬ dcaR7.total_coins > dipR7.total_coins := by norm_num [dcaR7, dipR7]
  have h2 : dcaR7.avg_cost < dipR7.avg_cost := by norm_num [dcaR7, dipR7]
  have h3 : ¬ dcaR7.return_pct > dipR7.return_pct := by norm_num [dcaR7, dipR7]
  have h4 : dcaUtilization dcaR7 > dipUtilization dipR7 := by
    norm_num [dcaUtilization, dipUtilization, dcaR7, dipR7]
  refine ⟨?_, ?_, ?_, ?_⟩
  · simp [specUnweightedScores, h1, h2, h3, h4]
  · simp [comparisonScores, h1, h2, h3, h4]
  · simp [comparisonScores, h1, h2, h3, h4]
  · simp [comparisonWinner, comparisonScores, h1, h2, h3, h4]

/-- C7 (amended). The comparator's aggregate winner score is a weighted
point tally: units 3 points, average cost 2, return 2, capital utilization
1 (8 points total), awarded to the pointwise winner of each metric; the
declared overall winner is the strategy with the strictly higher tally,
with Simple DCA declared on ties. -/
theorem ctb_C7 (dca_r : DcaResults) (dip_r : DipResults) :
    (comparisonScores dca_r dip_r).1
      = (if dca_r.total_coins > dip_r.total_coins then 3 else 0)
        + (if dca_r.avg_cost < dip_r.avg_cost then 2 else 0)
        + (if dca_r.return_pct > dip_r.return_pct then 2 else 0)
        + (if dcaUtilization dca_r > dipUtilization dip_r then 1 else 0) ∧
    (comparisonScores dca_r dip_r).2
      = (if dca_r.total_coins > dip_r.total_coins then 0 else 3)
        + (if dca_r.avg_cost < dip_r.avg_cost then 0 else 2)
        + (if dca_r.return_pct > dip_r.return_pct then 0 else 2)
        + (if dcaUtilization dca_r > dipUtilization dip_r then 0 else 1) ∧
    (comparisonScores dca_r dip_r).1 + (comparisonScores dca_r dip_r).2 = 8 ∧
    (comparisonWinner dca_r dip_r = Strategy.buyTheDip
      ↔ (comparisonScores dca_r dip_r).2 > (comparisonScores dca_r dip_r).1) := by
  have hw : comparisonWinner dca_r dip_r = Strategy.buyTheDip
      ↔ (comparisonScores dca_r dip_r).2 > (comparisonScores dca_r dip_r).1 := by
    unfold comparisonWinner
    by_cases h : (comparisonScores dca_r dip_r).2 > (comparisonScores dca_r dip_r).1
    · simp [h]
    · simp [h]
  refine ⟨?_, ?_, ?_, hw⟩ <;>
    · unfold comparisonScores
      split_ifs <;> norm_num

/-- Counterexample for C8: the February 2024 group has exactly one bar, yet
the monthly reducer emits a return entry for it (return 10, not skipped,
not zero). -/
theorem ctb_C8_counterexample :
    (monthData dfC8 2024 2).length = 1 ∧
    (analyze_drops_results dfC8).map (fun r => (r.year, r.month, r.monthly_return))
      = [(2024, 1, 0), (2024, 2, 10)] ∧
    (10 : ℚ) ≠ 0 := by
  refine ⟨rfl, ?_, by norm_num⟩
  simp +decide [analyze_drops_results, uniqueMonths, monthData, dropsRow,
    List.insertionSort, List.orderedInsert, List.dedup, List.pwFilter, monthKey,
    dfC8, janC8BarA, janC8BarB, febC8Bar, listMin, cummax, rollingMaxFrom,
    intrabarReturn, List.filter]
  norm_num

/-- C8 (amended). The per-month reducer of analyze_drops emits exactly one
return entry for every (year, month) group present in the series — months
with at least one bar are never skipped; a month whose group has exactly
one bar gets that bar's intrabar return (close-open)/open*100 as its
monthly return, which is zero only when close equals open. -/
theorem ctb_C8 (df : List Bar) :
    (analyze_drops_results df).map (fun r => (r.year, r.month)) = uniqueMonths df ∧
    (∀ (y m : ℕ) (b : Bar), monthData df y m = [b] →
      ∀ r ∈ analyze_drops_results df, r.year = y → r.month = m →
        r.monthly_return = intrabarReturn b) := by
  constructor
  · rw [analyze_drops_results, List.map_map]
    have h : ∀ ym ∈ uniqueMonths df,
        ((fun r => (r.year, r.month))
          ∘ (fun ym : ℕ × ℕ => dropsRow ym.1 ym.2 (monthData df ym.1 ym.2))) ym
          = id ym := by
      rintro ⟨y, m⟩ _
      rfl
    rw [List.map_congr_left h, List.map_id]
  · intro y m b hmd r hr hy hm2
    obtain ⟨ym, -, hrow⟩ := List.mem_map.mp hr
    have hy1 : ym.1 = y := by rw [← hy, ← hrow]; rfl
    have hm1 : ym.2 = m := by rw [← hm2, ← hrow]; rfl
    rw [← hrow, hy1, hm1, hmd]
    simp [dropsRow, intrabarReturn]

/-- Witness for C8 (amended): on the one-bar-February series the reducer
covers every month and the February entry carries that bar's intrabar
return. -/
theorem ctb_C8_witness :
    (analyze_drops_results dfC8).map (fun r => (r.year, r.month)) = uniqueMonths dfC8 ∧
    (∀ r ∈ analyze_drops_results dfC8, r.year = 2024 → r.month = 2 →
      r.monthly_return = intrabarReturn febC8Bar) :=
  ⟨(ctb_C8 dfC8).1, (ctb_C8 dfC8).2 2024 2 febC8Bar rfl⟩

theorem pctChangeReturns_length (df : List Bar) :
    (pctChangeReturns df).length = df.length := by
  cases df with
  | nil => rfl
  | cons b rest =>
      simp [pctChangeReturns, List.length_zip]

theorem pctChangeReturns_getElem (df : List Bar) (i : ℕ) (hi : i + 1 < df.length)
    (hp : i + 1 < (pctChangeReturns df).length) :
    (pctChangeReturns df).get ⟨i + 1, hp⟩
      = some (((df.get ⟨i + 1, hi⟩).close - (df.get ⟨i, Nat.lt_of_succ_lt hi⟩).close)
          / (df.get ⟨i, Nat.lt_of_succ_lt hi⟩).close * 100) := by
  cases df with
  | nil => simp at hi
  | cons b rest =>
      have hir : i < rest.length := by simpa using hi
      have hiz : i < (rest.zip (b :: rest)).length := by
        simp only [List.length_zip, List.length_cons]
        omega
      simp only [pctChangeReturns, List.drop_one, List.tail_cons, List.get_eq_getElem,
        List.getElem_cons_succ, List.getElem_map, List.getElem_zip]

/-- C9. Subrange daily-return invariant: every August bar that is not the
very first bar of the full series carries, in the final daily_return
column of the August subrange, the cross-bar return computed against the
immediately preceding bar of the full series — also when that preceding
bar lies outside August. -/
theorem ctb_C9 (df : List Bar) (i : ℕ) (hi : i + 1 < df.length)
    (hm : (df.get ⟨i + 1, hi⟩).date.m = 8) :
    ((df.get ⟨i + 1, hi⟩).date,
      some (((df.get ⟨i + 1, hi⟩).close - (df.get ⟨i, Nat.lt_of_succ_lt hi⟩).close)
          / (df.get ⟨i, Nat.lt_of_succ_lt hi⟩).close * 100))
      ∈ augustRows df := by
  have hp : i + 1 < (pctChangeReturns df).length := by
    rw [pctChangeReturns_length]
    exact hi
  have hz : i + 1 < (df.zip (pctChangeReturns df)).length := by
    simp only [List.length_zip, pctChangeReturns_length]
    omega
  have hmem1 : (df.get ⟨i + 1, hi⟩, (pctChangeReturns df).get ⟨i + 1, hp⟩)
      ∈ df.zip (pctChangeReturns df) := by
    have hget : (df.zip (pctChangeReturns df)).get ⟨i + 1, hz⟩
        = (df.get ⟨i + 1, hi⟩, (pctChangeReturns df).get ⟨i + 1, hp⟩) := by
      simp [List.get_eq_getElem, List.getElem_zip]
    rw [← hget]
    exact List.get_mem _ _ hz
  have hmem2 : (df.get ⟨i + 1, hi⟩, (pctChangeReturns df).get ⟨i + 1, hp⟩)
      ∈ (df.zip (pctChangeReturns df)).filter (fun p => p.1.date.m == 8) := by
    refine List.mem_filter.mpr ⟨hmem1, ?_⟩
    have hm2 : (df.get ⟨i + 1, hi⟩).date.m = 8 := hm
    simp only [List.get_eq_getElem] at hm2
    simp [hm2]
  unfold augustRows
  refine List.mem_map.mpr ⟨_, hmem2, ?_⟩
  rw [pctChangeReturns_getElem df i hi hp]

/-- Witness for C9: the first August bar of the demo series carries the
return against the preceding July bar of the full series. -/
theorem ctb_C9_witness :
    ((dfC9.get ⟨1, by norm_num [dfC9]⟩).date,
      some (((dfC9.get ⟨1, by norm_num [dfC9]⟩).close
          - (dfC9.get ⟨0, by norm_num [dfC9]⟩).close)
          / (dfC9.get ⟨0, by norm_num [dfC9]⟩).close * 100))
      ∈ augustRows dfC9 :=
  ctb_C9 dfC9 0 (by norm_num [dfC9]) rfl
